import Mathlib

/-!
Shallow embedding of the resume-mcp repository core: the JSON Resume data
model (src/src/types.ts), the non-destructive merge engine
(OpenAIService.enhanceResume, src/src/openai.ts lines 172-208), the
enhancement orchestrator (ResumeEnhancer.enhanceWithCurrentProject,
src/src/resume-enhancer.ts), the zod schema validation
(src/src/schemas.ts), the check-resume tool handler (src/index.ts) and
the gist resolution with its session cache (GitHubService.getResumeGist,
src/src/github.ts).

Conventions: TypeScript optional fields become `Option`; a JSON round
trip (the deep copy `JSON.parse(JSON.stringify(resume))`) is the
identity on this data model, so the copy is not represented explicitly;
JavaScript `toLowerCase` is modelled by `jsToLower` below (per-character
ASCII folding, which coincides with JavaScript on all names occurring
here); the OpenAI
network calls are oracles, so their outcomes are passed in as explicit
parameters.
-/

namespace ResumeMcp

/-- JavaScript `String.prototype.toLowerCase`, modelled as per-character
ASCII case folding over the underlying character list (structural, so
the kernel can evaluate it on concrete strings). -/
def jsToLower (s : String) : String := String.mk (s.data.map Char.toLower)

/-- JavaScript `String.prototype.trim`: drop whitespace from both ends
(structural version over the character list). -/
def jsTrim (s : String) : String :=
  String.mk (((s.data.dropWhile Char.isWhitespace).reverse.dropWhile Char.isWhitespace).reverse)

/-- Location block of the basics section (src/src/types.ts). -/
structure Location where
  address : Option String := none
  postalCode : Option String := none
  city : Option String := none
  countryCode : Option String := none
  region : Option String := none
deriving DecidableEq

/-- Social profile entry (src/src/types.ts). -/
structure Profile where
  network : Option String := none
  username : Option String := none
  url : Option String := none
deriving DecidableEq

/-- Basic profile info section (src/src/types.ts). -/
structure Basics where
  name : Option String := none
  label : Option String := none
  image : Option String := none
  email : Option String := none
  phone : Option String := none
  url : Option String := none
  summary : Option String := none
  location : Option Location := none
  profiles : Option (List Profile) := none
deriving DecidableEq

/-- Work entry (src/src/types.ts). -/
structure Work where
  name : Option String := none
  position : Option String := none
  url : Option String := none
  startDate : Option String := none
  endDate : Option String := none
  summary : Option String := none
  highlights : Option (List String) := none
  location : Option String := none
deriving DecidableEq

/-- Volunteer entry (src/src/types.ts). -/
structure Volunteer where
  organization : Option String := none
  position : Option String := none
  url : Option String := none
  startDate : Option String := none
  endDate : Option String := none
  summary : Option String := none
  highlights : Option (List String) := none
deriving DecidableEq

/-- Education entry (src/src/types.ts). -/
structure Education where
  institution : Option String := none
  url : Option String := none
  area : Option String := none
  studyType : Option String := none
  startDate : Option String := none
  endDate : Option String := none
  score : Option String := none
  courses : Option (List String) := none
deriving DecidableEq

/-- Award entry (src/src/types.ts). -/
structure Award where
  title : Option String := none
  date : Option String := none
  awarder : Option String := none
  summary : Option String := none
deriving DecidableEq

/-- Certificate entry (src/src/types.ts). -/
structure Certificate where
  name : Option String := none
  date : Option String := none
  issuer : Option String := none
  url : Option String := none
deriving DecidableEq

/-- Publication entry (src/src/types.ts). -/
structure Publication where
  name : Option String := none
  publisher : Option String := none
  releaseDate : Option String := none
  url : Option String := none
  summary : Option String := none
deriving DecidableEq

/-- Skill entry. The name is typed as required because every code path
that reads a skill object (openai.ts line 190) dereferences `skill.name`
unconditionally, and the zod `skillSchema` requires it; `category` comes
from types.ts (the zod schema strips it, so validation yields `none`). -/
structure Skill where
  name : String
  level : Option String := none
  keywords : Option (List String) := none
  category : Option String := none
deriving DecidableEq

/-- Language entry (src/src/types.ts). -/
structure LanguageEntry where
  language : Option String := none
  fluency : Option String := none
deriving DecidableEq

/-- Interest entry (src/src/types.ts). -/
structure Interest where
  name : Option String := none
  keywords : Option (List String) := none
deriving DecidableEq

/-- Reference entry (src/src/types.ts). -/
structure Reference where
  name : Option String := none
  reference : Option String := none
deriving DecidableEq

/-- Project entry. `name` is required: the merge dereferences
`project.name` unconditionally (openai.ts line 180) and the zod
`projectSchema` requires it. The remaining fields follow types.ts. -/
structure Project where
  name : String
  description : Option String := none
  highlights : Option (List String) := none
  keywords : Option (List String) := none
  startDate : Option String := none
  endDate : Option String := none
  url : Option String := none
  roles : Option (List String) := none
  entity : Option String := none
  type : Option String := none
deriving DecidableEq

/-- Metadata block (src/src/types.ts). -/
structure Meta where
  canonical : Option String := none
  version : Option String := none
  lastModified : Option String := none
deriving DecidableEq

/-- A skill as stored in an actual resume document: observed data holds
either a bare string or a structured entry, and the merge handles both
(openai.ts lines 188-192: `typeof skill === 'string'`). -/
inductive ResumeSkillEntry where
  | str (s : String)
  | obj (s : Skill)
deriving DecidableEq

/-- The resume document (src/src/types.ts `Resume`), with the
out-of-band storage identifier `_gistId` modelled as the extra field
`gistId` (it is a non-schema property injected on the same object). -/
structure Resume where
  basics : Option Basics := none
  work : Option (List Work) := none
  volunteer : Option (List Volunteer) := none
  education : Option (List Education) := none
  awards : Option (List Award) := none
  certificates : Option (List Certificate) := none
  publications : Option (List Publication) := none
  skills : Option (List ResumeSkillEntry) := none
  languages : Option (List LanguageEntry) := none
  interests : Option (List Interest) := none
  references : Option (List Reference) := none
  projects : Option (List Project) := none
  meta : Option Meta := none
  gistId : Option String := none
deriving DecidableEq

/-- Input of the merge (schemas.ts `ResumeUpdate` / `JobBasedResumeUpdate`):
`newProject` is optional because `enhanceForJob` passes an update without
one and the merge guards with `update.newProject && ...` (openai.ts
line 183). -/
structure ResumeUpdate where
  newProject : Option Project := none
  newSkills : List Skill
  changes : List String
deriving DecidableEq

/-- Lower-cased names of the projects already in the resume
(openai.ts lines 179-181). -/
def existingProjectKeys (r : Resume) : List String :=
  (r.projects.getD []).map (fun p => jsToLower p.name)

/-- Dedup key of one stored skill entry: a bare string is lower-cased
itself, a structured entry contributes its lower-cased name
(openai.ts lines 189-191). -/
def skillKey : ResumeSkillEntry → String
  | .str s => jsToLower s
  | .obj s => jsToLower s.name

/-- Lower-cased dedup keys of the skills already in the resume
(openai.ts lines 188-192). -/
def existingSkillKeys (r : Resume) : List String :=
  (r.skills.getD []).map skillKey

/-- Project half of the merge (openai.ts lines 178-185): append the
proposed project unless its lower-cased name is already present. -/
def addProject (resume : Resume) (newProject : Option Project) : Resume :=
  match newProject with
  | some p =>
    if (existingProjectKeys resume).contains (jsToLower p.name) then resume
    else { resume with projects := some (resume.projects.getD [] ++ [p]) }
  | none => resume

/-- The filtered survivors of the proposed skill list: the local
`const newSkills = update.newSkills.filter(...)` of openai.ts lines
194-196, keeping only skills whose lower-cased name is absent from the
existing keys. -/
def freshSkills (resume : Resume) (newSkills : List Skill) : List Skill :=
  newSkills.filter (fun s => !(existingSkillKeys resume).contains (jsToLower s.name))

/-- Skill half of the merge (openai.ts lines 187-200): filter the
proposed skills against the existing lower-cased names, then append the
survivors (only when there is at least one, matching the
`newSkills.length > 0` guard). -/
def addSkills (resume : Resume) (newSkills : List Skill) : Resume :=
  if (freshSkills resume newSkills).isEmpty then resume
  else { resume with
         skills := some (resume.skills.getD [] ++ (freshSkills resume newSkills).map ResumeSkillEntry.obj) }

/-- The merge engine, `OpenAIService.enhanceResume` (openai.ts lines
172-208). The deep copy is the identity here, and the `_gistId`
save-and-restore is a no-op on this model because the field is carried
by the record updates untouched. -/
def enhanceResume (resume : Resume) (update : ResumeUpdate) : Resume :=
  addSkills (addProject resume update.newProject) update.newSkills

/-- A validated codebase-driven proposed update (schemas.ts
`resumeUpdateSchema`): here `newProject` is required. -/
structure CodebaseUpdate where
  newProject : Project
  newSkills : List Skill
  changes : List String
deriving DecidableEq

/-- Inject a validated codebase-driven update into the merge input type. -/
def CodebaseUpdate.toResumeUpdate (u : CodebaseUpdate) : ResumeUpdate :=
  { newProject := some u.newProject, newSkills := u.newSkills, changes := u.changes }

/-- The fixed fallback summary string of
`OpenAIService.generateUpdateSummary` (openai.ts lines 233 and 237). -/
def fallbackSummary : String := "Resume updated with new project details and skills."

/-- Outcome of the secondary summary oracle call: the call threw, or it
returned a message whose content may be absent. -/
inductive SummaryOutcome where
  | err
  | ok (content : Option String)
deriving DecidableEq

/-- `OpenAIService.generateUpdateSummary` (openai.ts lines 213-239): a
thrown error is swallowed and replaced by the fallback string; an absent
or empty content string (falsy under the JavaScript `||`) also yields
the fallback. -/
def generateUpdateSummary (outcome : SummaryOutcome) : String :=
  match outcome with
  | .err => fallbackSummary
  | .ok none => fallbackSummary
  | .ok (some c) => if c.isEmpty then fallbackSummary else c

/-- `ResumeEnhancer.createUserMessage` (resume-enhancer.ts lines 133-135). -/
def createUserMessage (username : String) (changes : List String) : String :=
  "Your resume has been updated with your latest project contributions! View it at https://registry.jsonresume.org/"
    ++ username ++ "\n\nChanges made:\n"
    ++ String.intercalate "\n" (changes.map (fun c => "- " ++ c))
    ++ "\n\n?? Note: Please review the changes to ensure they match your preferences. You can revert to a previous version through your GitHub Gist revision history if needed."

/-- The change record assembled by the orchestrator
(resume-enhancer.ts lines 114-119). -/
structure EnhancementChanges where
  addedSkills : List String
  updatedProjects : List String
  updatedWork : List String
  otherChanges : List String
deriving DecidableEq

/-- Result of one enhancement run (resume-enhancer.ts `EnhancementResult`). -/
structure EnhancementResult where
  updatedResume : Resume
  changes : EnhancementChanges
  summary : String
  userMessage : String
  resumeLink : String
deriving DecidableEq

/-- The pure part of `ResumeEnhancer.enhanceWithCurrentProject`
(resume-enhancer.ts lines 82-128): the oracle update and the summary
oracle outcome are parameters; the change record is built from the
PROPOSED update (`update.newSkills.map(s => s.name)` and
`[update.newProject.name]`, lines 115-116), not from what the merge
appended. -/
def enhanceWithCurrentProject (resume : Resume) (update : CodebaseUpdate)
    (summaryOutcome : SummaryOutcome) (githubUsername : String) : EnhancementResult :=
  { updatedResume := enhanceResume resume update.toResumeUpdate
  , changes :=
    { addedSkills := update.newSkills.map (fun s => s.name)
    , updatedProjects := [update.newProject.name]
    , updatedWork := []
    , otherChanges := update.changes }
  , summary := generateUpdateSummary summaryOutcome
  , userMessage := createUserMessage githubUsername update.changes
  , resumeLink := "https://registry.jsonresume.org/" ++ githubUsername }

/-- Raw, unvalidated skill payload as parsed from the oracle JSON
(input shape of schemas.ts `skillSchema`). -/
structure RawSkill where
  name : Option String := none
  level : Option String := none
  keywords : Option (List String) := none
deriving DecidableEq

/-- Raw, unvalidated project payload (input shape of schemas.ts
`projectSchema`). -/
structure RawProject where
  name : Option String := none
  startDate : Option String := none
  endDate : Option String := none
  description : Option String := none
  highlights : Option (List String) := none
  url : Option String := none
deriving DecidableEq

/-- Raw, unvalidated oracle payload (input shape of schemas.ts
`resumeUpdateSchema`). -/
structure RawUpdate where
  newProject : Option RawProject := none
  newSkills : Option (List RawSkill) := none
  changes : Option (List String) := none
deriving DecidableEq

/-- The anchored regex `^\d{4}-\d{2}-\d{2}$` of schemas.ts
`isoDateSchema`, decided positionally. -/
def isIsoDate (s : String) : Bool :=
  match s.toList with
  | [a, b, c, d, e, f, g, h, i, j] =>
    a.isDigit && b.isDigit && c.isDigit && d.isDigit && e == '-'
      && f.isDigit && g.isDigit && h == '-' && i.isDigit && j.isDigit
  | _ => false

/-- Approximation of the zod `url()` check, which defers to the host URL
parser: a nonempty scheme, the separator, and a nonempty remainder. No
claim in this development depends on URL validity; it is included only
so the validator has the same sequence of checks as the source. -/
def looksLikeUrl (s : String) : Bool :=
  match s.splitOn "://" with
  | scheme :: rest :: _ => !scheme.isEmpty && !rest.isEmpty
  | _ => false

/-- Validation of one raw skill against schemas.ts `skillSchema`
(`name` required and nonempty; `level` and `keywords` optional; unknown
keys stripped, so `category` is `none`). zod reports structured issues;
this model keeps the first failing rule as a message string. -/
def validateSkill (raw : RawSkill) : Except String Skill :=
  match raw.name with
  | none => .error "newSkills name: required"
  | some n =>
    if n.length < 1 then .error "Skill name is required"
    else .ok { name := n, level := raw.level, keywords := raw.keywords, category := none }

/-- Validation of the raw project against schemas.ts `projectSchema`:
required nonempty `name`, required ISO `startDate`, optional ISO
`endDate`, required `description` of length at least 10, optional
`highlights`, optional well-formed `url`. -/
def validateProject (raw : RawProject) : Except String Project :=
  match raw.name with
  | none => .error "newProject.name: required"
  | some n =>
    if n.length < 1 then .error "Project name is required"
    else match raw.startDate with
    | none => .error "newProject.startDate: required"
    | some sd =>
      if !isIsoDate sd then .error "Date must be in YYYY-MM-DD format"
      else if (match raw.endDate with | some ed => !isIsoDate ed | none => false) then
        .error "Date must be in YYYY-MM-DD format"
      else match raw.description with
      | none => .error "newProject.description: required"
      | some d =>
        if d.length < 10 then .error "Description should be meaningful and professional"
        else if (match raw.url with | some u => !looksLikeUrl u | none => false) then
          .error "URL must be valid"
        else .ok { name := n, startDate := some sd, endDate := raw.endDate,
                   description := some d, highlights := raw.highlights, url := raw.url }

/-- Validation of the raw skill list, first failure wins. -/
def validateSkills : List RawSkill → Except String (List Skill)
  | [] => .ok []
  | raw :: rest =>
    match validateSkill raw with
    | .error m => .error m
    | .ok s =>
      match validateSkills rest with
      | .error m => .error m
      | .ok ss => .ok (s :: ss)

/-- Validation of the whole oracle payload against schemas.ts
`resumeUpdateSchema`: `newProject`, `newSkills` and `changes` are all
required. -/
def validateResumeUpdate (raw : RawUpdate) : Except String CodebaseUpdate :=
  match raw.newProject with
  | none => .error "newProject: required"
  | some rp =>
    match validateProject rp with
    | .error m => .error m
    | .ok p =>
      match raw.newSkills with
      | none => .error "newSkills: required"
      | some rs =>
        match validateSkills rs with
        | .error m => .error m
        | .ok ss =>
          match raw.changes with
          | none => .error "changes: required"
          | some cs => .ok { newProject := p, newSkills := ss, changes := cs }

/-- What the primary oracle call produced, as seen by
`generateResumeEnhancement` (openai.ts lines 130-153): no function-call
arguments at all, arguments that fail `JSON.parse` (SyntaxError), or a
parsed JSON payload still to be validated. -/
inductive OracleOutput where
  | noFunctionCall
  | unparseable
  | parsed (raw : RawUpdate)
deriving DecidableEq

/-- The error taxonomy of the enhancement attempt: the missing
function-call error, the JSON parse error (SyntaxError) and the schema
validation error (ZodError) are distinguishable (openai.ts lines
145-153 log them distinctly and rethrow). -/
inductive EnhanceError where
  | noFunctionCall
  | parseError
  | schemaError (msg : String)
deriving DecidableEq

/-- `OpenAIService.generateResumeEnhancement` (openai.ts lines 20-167)
reduced to its trust boundary: parse, then validate with
`resumeUpdateSchema.parse`; every failure aborts with a distinguishable
error. -/
def generateResumeEnhancement (out : OracleOutput) : Except EnhanceError CodebaseUpdate :=
  match out with
  | .noFunctionCall => .error .noFunctionCall
  | .unparseable => .error .parseError
  | .parsed raw =>
    match validateResumeUpdate raw with
    | .error m => .error (.schemaError m)
    | .ok u => .ok u

/-- The orchestration of one enhancement attempt
(resume-enhancer.ts lines 94-123 with its error propagation): a failure
of the primary oracle call or of validation aborts before any merge;
otherwise the merge and result assembly run. -/
def enhanceWithCurrentProjectRun (resume : Resume) (oracleOut : OracleOutput)
    (summaryOutcome : SummaryOutcome) (githubUsername : String) :
    Except EnhanceError EnhancementResult :=
  match generateResumeEnhancement oracleOut with
  | .error e => .error e
  | .ok u => .ok (enhanceWithCurrentProject resume u summaryOutcome githubUsername)

/-- Result shape of the `check_resume` tool handler (src/index.ts lines
143-171). The field for the `exists` marker is named `found` because
`exists` is reserved in Lean. -/
structure CheckResumeResult where
  message : String
  found : Bool
  resumeUrl : Option String
  resume : Option Resume
deriving DecidableEq

/-- `checkResume` (src/index.ts lines 143-171) with the fetched resume
passed in: on a hit it strips the `_gistId` attribute
(`const { _gistId, ...cleanResume } = resume`) before returning the
document. -/
def checkResume (fetched : Option Resume) (githubUsername : String) : CheckResumeResult :=
  match fetched with
  | none =>
    { message := "No resume found", found := false, resumeUrl := none, resume := none }
  | some r =>
    { message := "Resume found", found := true
    , resumeUrl := some ("https://registry.jsonresume.org/" ++ githubUsername)
    , resume := some { r with gistId := none } }

/-- One file of a gist as listed or fetched (src/src/github.ts). -/
structure GistFile where
  filename : String
  content : Option String
deriving DecidableEq

/-- One gist: identifier, last-update instant (`new Date(...).getTime()`),
and its files, modelled as the list of values of the filename-keyed
object returned by the API. -/
structure Gist where
  id : String
  updatedAt : Int
  files : List GistFile
deriving DecidableEq

/-- Outcome of `octokit.rest.gists.get` for one identifier: the request
threw, or returned a gist. -/
inductive FetchOutcome where
  | err
  | ok (g : Gist)
deriving DecidableEq

/-- The listing filter (github.ts lines 53-59): keep gists having a file
named exactly `resume.json`. -/
def gistHasResumeFile (g : Gist) : Bool :=
  g.files.any (fun f => f.filename == "resume.json")

/-- Head of the stable descending sort by `updatedAt` (github.ts lines
60-70): the first gist attaining the maximal update instant. -/
def pickMostRecent : List Gist → Option Gist
  | [] => none
  | g :: gs => some (gs.foldl (fun best c => if c.updatedAt > best.updatedAt then c else best) g)

/-- Content of the `resume.json` file of a fetched gist, accessed by
filename key (github.ts lines 90-93). -/
def resumeFileContent (g : Gist) : Option String :=
  (g.files.find? (fun f => f.filename == "resume.json")).bind (fun f => f.content)

/-- The fetch phase of `getResumeGist` (github.ts lines 84-113): fetch
the chosen identifier; on a thrown fetch error, or on a gist lacking a
`resume.json` content string, clear the cached identifier (it equals
the fetched one in every reachable path) and produce no content — the
rethrown error is caught by the outer handler, which returns null. -/
def getResumeGistFetch (gid : String) (fetch : String → FetchOutcome) :
    Option String × Option String :=
  match fetch gid with
  | .ok g =>
    match resumeFileContent g with
    | some c => (some gid, some c)
    | none => (none, none)
  | .err => (none, none)

/-- One call to `GitHubService.getResumeGist` (github.ts lines 40-120)
as a function of the session cache, the listing result and the fetch
oracle; it returns the new cache state and the result. A cached
identifier is used directly; otherwise the listing is filtered for
`resume.json`, the most recent match is cached (unless its id is the
empty string, falsy in the source check) and then fetched. -/
def getResumeGist (cachedGistId : Option String) (gists : List Gist)
    (fetch : String → FetchOutcome) : Option String × Option String :=
  match cachedGistId with
  | some gid => getResumeGistFetch gid fetch
  | none =>
    match pickMostRecent (gists.filter gistHasResumeFile) with
    | none => (none, none)
    | some g =>
      if g.id.isEmpty then (none, none)
      else getResumeGistFetch g.id fetch

/-- The project part of the merge result expressed as the list that gets
appended: empty on a name collision or when no project is proposed,
otherwise the single proposed project. -/
def appendedProjects (r : Resume) (np : Option Project) : List Project :=
  match np with
  | none => []
  | some p => if (existingProjectKeys r).contains (jsToLower p.name) then [] else [p]

/-- Modelled from the spec: the dedup key as the spec words it,
"Equality/dedup key = lower-cased trimmed name". The source (openai.ts
lines 180, 190 and 195) lower-cases but never trims; this definition
exists only to compare the spec wording against the code. -/
def specDedupKey (name : String) : String := jsToLower (jsTrim name)

/-- The resume of the end-to-end scenario in the spec: one existing
skill named JavaScript and an empty project list. -/
def scenarioResume : Resume :=
  { skills := some [ResumeSkillEntry.obj { name := "JavaScript" }], projects := some [] }

/-- The proposed project of the end-to-end scenario. -/
def scenarioProject : Project :=
  { name := "Service X", startDate := some "2024-01-01"
  , description := some "A thing that does X for users." }

/-- The proposed update of the end-to-end scenario: the project plus
skills JavaScript (colliding) and Go (new). -/
def scenarioUpdate : CodebaseUpdate :=
  { newProject := scenarioProject
  , newSkills := [{ name := "JavaScript" }, { name := "Go" }]
  , changes := ["added Service X", "added Go"] }

/-- A resume holding one structured skill named Python, for the dedup
examples. -/
def pythonResume : Resume :=
  { skills := some [ResumeSkillEntry.obj { name := "Python" }] }

/-- A proposed skill whose name differs from Python only by surrounding
whitespace and case. -/
def paddedPythonSkill : Skill := { name := " python " }

/-- A skills-only proposed update carrying the padded Python skill. -/
def paddedUpdate : ResumeUpdate :=
  { newProject := none, newSkills := [paddedPythonSkill], changes := [] }

/-- A skills-only proposed update with a lower-cased python skill. -/
def lowerPythonUpdate : ResumeUpdate :=
  { newProject := none, newSkills := [{ name := "python" }], changes := [] }

/-- A resume carrying the storage identifier. -/
def gistResume : Resume := { skills := some [], gistId := some "abc123" }

/-- A pair of proposed skills equal up to case, both absent from an
empty resume. -/
def goSkill : Skill := { name := "Go" }

/-- See `goSkill`. -/
def goSkillVariant : Skill := { name := "gO" }

/-- A valid gist holding a resume.json file, for the cache examples. -/
def freshGist : Gist :=
  { id := "fresh", updatedAt := 5
  , files := [{ filename := "resume.json", content := some "RESUME" }] }

/-- A fetch oracle for which the stale cached identifier fails but the
gist the listing would find succeeds. -/
def staleFetch : String → FetchOutcome :=
  fun gid => if gid == "fresh" then FetchOutcome.ok freshGist else FetchOutcome.err

/-- A fetch oracle that always fails. -/
def failFetch : String → FetchOutcome := fun _ => FetchOutcome.err

/-- An oracle payload whose required project description field is
missing (the spec scenario for schema rejection). -/
def rawMissingDescription : RawUpdate :=
  { newProject := some { name := some "Service X", startDate := some "2024-01-01" }
  , newSkills := some []
  , changes := some ["added Service X"] }

/-- A fully valid oracle payload. -/
def rawValid : RawUpdate :=
  { newProject := some { name := some "Service X", startDate := some "2024-01-01"
                       , description := some "A thing that does X for users." }
  , newSkills := some [{ name := some "Go" }]
  , changes := some ["added Go"] }

/-- The validated form of `rawValid`. -/
def validUpdate : CodebaseUpdate :=
  { newProject := { name := "Service X", startDate := some "2024-01-01"
                  , description := some "A thing that does X for users." }
  , newSkills := [{ name := "Go" }]
  , changes := ["added Go"] }

/-- Boolean list membership agrees with propositional membership. -/
lemma contains_iff_mem (l : List String) (a : String) : l.contains a = true ↔ a ∈ l := by
  simp [List.contains, List.elem_iff]

/-- Mapping preserves emptiness. -/
lemma isEmpty_map {α β : Type} (f : α → β) (l : List α) : (l.map f).isEmpty = l.isEmpty := by
  cases l <;> rfl

/-- The project half of the merge touches only the projects field. -/
lemma addProject_eq (r : Resume) (np : Option Project) :
    addProject r np = { r with projects := (addProject r np).projects } := by
  cases np with
  | none => rfl
  | some p =>
    by_cases hc : (existingProjectKeys r).contains (jsToLower p.name) = true
    · simp only [addProject, if_pos hc]
    · simp only [addProject, if_neg hc]

/-- The skill half of the merge touches only the skills field. -/
lemma addSkills_eq (r : Resume) (ss : List Skill) :
    addSkills r ss = { r with skills := (addSkills r ss).skills } := by
  by_cases hc : (freshSkills r ss).isEmpty = true
  · simp only [addSkills, if_pos hc]
  · simp only [addSkills, if_neg hc]

/-- The project half leaves the skills field unchanged. -/
lemma addProject_skills (r : Resume) (np : Option Project) :
    (addProject r np).skills = r.skills := by
  rw [addProject_eq r np]

/-- The skill half leaves the projects field unchanged. -/
lemma addSkills_projects (r : Resume) (ss : List Skill) :
    (addSkills r ss).projects = r.projects := by
  rw [addSkills_eq r ss]

/-- The skill dedup keys do not change when a project is appended. -/
lemma existingSkillKeys_addProject (r : Resume) (np : Option Project) :
    existingSkillKeys (addProject r np) = existingSkillKeys r := by
  unfold existingSkillKeys
  rw [addProject_skills]

/-- The project dedup keys do not change when skills are appended. -/
lemma existingProjectKeys_addSkills (r : Resume) (ss : List Skill) :
    existingProjectKeys (addSkills r ss) = existingProjectKeys r := by
  unfold existingProjectKeys
  rw [addSkills_projects]

/-- The fresh-skill filter is unaffected by the earlier project step. -/
lemma freshSkills_addProject (r : Resume) (np : Option Project) (ss : List Skill) :
    freshSkills (addProject r np) ss = freshSkills r ss := by
  unfold freshSkills
  rw [existingSkillKeys_addProject]

/-- After the project step, the key of the proposed project is present. -/
lemma mem_projectKeys_addProject (r : Resume) (p : Project) :
    jsToLower p.name ∈ existingProjectKeys (addProject r (some p)) := by
  by_cases hc : (existingProjectKeys r).contains (jsToLower p.name) = true
  · simp only [addProject, if_pos hc]
    exact (contains_iff_mem _ _).mp hc
  · simp only [addProject, if_neg hc]
    show jsToLower p.name ∈ (r.projects.getD [] ++ [p]).map (fun q => jsToLower q.name)
    exact List.mem_map_of_mem _ (List.mem_append_right _ (by simp))

/-- Skill keys after the skill step: the old keys followed by the keys
of the filtered survivors. -/
lemma existingSkillKeys_addSkills (r : Resume) (ss : List Skill) :
    existingSkillKeys (addSkills r ss) =
      existingSkillKeys r ++ (freshSkills r ss).map (fun s => jsToLower s.name) := by
  by_cases hc : (freshSkills r ss).isEmpty = true
  · have he : freshSkills r ss = [] := List.isEmpty_iff.mp hc
    simp only [addSkills, if_pos hc]
    rw [he]
    simp
  · simp only [addSkills, if_neg hc]
    show (r.skills.getD [] ++ (freshSkills r ss).map ResumeSkillEntry.obj).map skillKey = _
    simp [existingSkillKeys, List.map_append, List.map_map, Function.comp, skillKey]

/-- After the skill step, the key of every proposed skill is present. -/
lemma mem_skillKeys_addSkills (r : Resume) (ss : List Skill) (s : Skill) (hs : s ∈ ss) :
    jsToLower s.name ∈ existingSkillKeys (addSkills r ss) := by
  rw [existingSkillKeys_addSkills, List.mem_append]
  by_cases hc : (existingSkillKeys r).contains (jsToLower s.name) = true
  · exact Or.inl ((contains_iff_mem _ _).mp hc)
  · right
    have hmem : s ∈ freshSkills r ss := by
      unfold freshSkills
      rw [List.mem_filter]
      refine ⟨hs, ?_⟩
      simp only [Bool.not_eq_true] at hc
      rw [hc]
      rfl
    exact List.mem_map_of_mem _ hmem

/-- The merge changes at most the skills and projects fields. -/
lemma enhanceResume_frame (r : Resume) (u : ResumeUpdate) :
    (enhanceResume r u).basics = r.basics ∧
    (enhanceResume r u).work = r.work ∧
    (enhanceResume r u).volunteer = r.volunteer ∧
    (enhanceResume r u).education = r.education ∧
    (enhanceResume r u).awards = r.awards ∧
    (enhanceResume r u).certificates = r.certificates ∧
    (enhanceResume r u).publications = r.publications ∧
    (enhanceResume r u).languages = r.languages ∧
    (enhanceResume r u).interests = r.interests ∧
    (enhanceResume r u).references = r.references ∧
    (enhanceResume r u).meta = r.meta ∧
    (enhanceResume r u).gistId = r.gistId := by
  have h1 := addSkills_eq (addProject r u.newProject) u.newSkills
  have h2 := addProject_eq r u.newProject
  refine ⟨?_, ?_, ?_, ?_, ?_, ?_, ?_, ?_, ?_, ?_, ?_, ?_⟩ <;>
    (simp only [enhanceResume]; rw [h1, h2])

/-- The skills field after the skill step, characterized point-free. -/
lemma addSkills_skills (r : Resume) (ss : List Skill) :
    (addSkills r ss).skills =
      (if (freshSkills r ss).isEmpty then r.skills
       else some (r.skills.getD [] ++ (freshSkills r ss).map ResumeSkillEntry.obj)) := by
  by_cases hc : (freshSkills r ss).isEmpty = true
  · simp only [addSkills, if_pos hc]
  · simp only [addSkills, if_neg hc]

/-- The projects field after the project step, characterized through
the appended list. -/
lemma addProject_projects (r : Resume) (np : Option Project) :
    (addProject r np).projects =
      (if (appendedProjects r np).isEmpty then r.projects
       else some (r.projects.getD [] ++ appendedProjects r np)) := by
  cases np with
  | none => rfl
  | some p =>
    by_cases hc : (existingProjectKeys r).contains (jsToLower p.name) = true
    · simp only [addProject, appendedProjects, if_pos hc]
      rfl
    · simp only [addProject, appendedProjects, if_neg hc]
      rfl

/-- The skills field after the merge, characterized against the input. -/
lemma enhanceResume_skills (r : Resume) (u : ResumeUpdate) :
    (enhanceResume r u).skills =
      (if (freshSkills r u.newSkills).isEmpty then r.skills
       else some (r.skills.getD [] ++ (freshSkills r u.newSkills).map ResumeSkillEntry.obj)) := by
  show (addSkills (addProject r u.newProject) u.newSkills).skills = _
  rw [addSkills_skills, freshSkills_addProject, addProject_skills]

/-- The projects field after the merge, characterized against the input. -/
lemma enhanceResume_projects (r : Resume) (u : ResumeUpdate) :
    (enhanceResume r u).projects =
      (if (appendedProjects r u.newProject).isEmpty then r.projects
       else some (r.projects.getD [] ++ appendedProjects r u.newProject)) := by
  show (addSkills (addProject r u.newProject) u.newSkills).projects = _
  rw [addSkills_projects]
  exact addProject_projects r u.newProject

/-- The merged skill list is the old list followed by the survivors. -/
lemma enhanceResume_skills_getD (r : Resume) (u : ResumeUpdate) :
    (enhanceResume r u).skills.getD [] =
      r.skills.getD [] ++ (freshSkills r u.newSkills).map ResumeSkillEntry.obj := by
  rw [enhanceResume_skills]
  by_cases hc : (freshSkills r u.newSkills).isEmpty = true
  · rw [if_pos hc]
    have he : freshSkills r u.newSkills = [] := List.isEmpty_iff.mp hc
    simp [he]
  · rw [if_neg hc]
    rfl

/-- The merged project list is the old list followed by the appended
project, if any. -/
lemma enhanceResume_projects_getD (r : Resume) (u : ResumeUpdate) :
    (enhanceResume r u).projects.getD [] =
      r.projects.getD [] ++ appendedProjects r u.newProject := by
  rw [enhanceResume_projects]
  by_cases hc : (appendedProjects r u.newProject).isEmpty = true
  · rw [if_pos hc]
    have he : appendedProjects r u.newProject = [] := List.isEmpty_iff.mp hc
    simp [he]
  · rw [if_neg hc]
    rfl

/-- A raw project with a missing or too-short description never
validates. -/
lemma validateProject_description_error (rp : RawProject)
    (hd : rp.description = none ∨ ∃ d, rp.description = some d ∧ d.length < 10) :
    ∃ m, validateProject rp = Except.error m := by
  unfold validateProject
  cases hn : rp.name with
  | none => exact ⟨_, rfl⟩
  | some n =>
    dsimp only
    by_cases hl : n.length < 1
    · rw [if_pos hl]
      exact ⟨_, rfl⟩
    · rw [if_neg hl]
      cases hsd : rp.startDate with
      | none => exact ⟨_, rfl⟩
      | some sd =>
        dsimp only
        by_cases hiso : (!isIsoDate sd) = true
        · rw [if_pos hiso]
          exact ⟨_, rfl⟩
        · rw [if_neg hiso]
          by_cases hend : (match rp.endDate with | some ed => !isIsoDate ed | none => false) = true
          · rw [if_pos hend]
            exact ⟨_, rfl⟩
          · rw [if_neg hend]
            cases hdd : rp.description with
            | none => exact ⟨_, rfl⟩
            | some d =>
              dsimp only
              have hlen : d.length < 10 := by
                rcases hd with h | ⟨d2, hd2, hlen2⟩
                · rw [hdd] at h
                  cases h
                · rw [hdd] at hd2
                  cases hd2
                  exact hlen2
              rw [if_pos hlen]
              exact ⟨_, rfl⟩

/-- C1 (counterexample): in the end-to-end scenario of the spec
(existing skill JavaScript, proposed skills JavaScript and Go, proposed
project Service X), the change record lists addedSkills as BOTH
proposed skill names, not only the one actually appended: the claim
that addedSkills is exactly the appended skills (here `["Go"]`) is
false, although the merge itself appends only Go. -/
theorem c1_change_record_counterexample :
    (enhanceWithCurrentProject scenarioResume scenarioUpdate
        (SummaryOutcome.ok (some "sum")) "user").changes.addedSkills = ["JavaScript", "Go"] ∧
    (enhanceWithCurrentProject scenarioResume scenarioUpdate
        (SummaryOutcome.ok (some "sum")) "user").changes.addedSkills ≠ ["Go"] ∧
    (enhanceWithCurrentProject scenarioResume scenarioUpdate
        (SummaryOutcome.ok (some "sum")) "user").updatedResume.skills
      = some [ResumeSkillEntry.obj { name := "JavaScript" }, ResumeSkillEntry.obj { name := "Go" }] ∧
    (enhanceWithCurrentProject scenarioResume scenarioUpdate
        (SummaryOutcome.ok (some "sum")) "user").changes.updatedProjects = ["Service X"] := by
  refine ⟨rfl, ?_, by decide, rfl⟩
  decide

/-- C1 (amended): the change record built by enhanceWithCurrentProject
echoes the PROPOSED update: addedSkills is the list of all proposed
skill names (deduplicated or not) and updatedProjects always holds the
proposed project name, work changes are empty and other changes echo
the oracle change list. -/
theorem c1_change_record_amended (resume : Resume) (u : CodebaseUpdate)
    (so : SummaryOutcome) (username : String) :
    (enhanceWithCurrentProject resume u so username).changes.addedSkills
        = u.newSkills.map (fun s => s.name) ∧
    (enhanceWithCurrentProject resume u so username).changes.updatedProjects
        = [u.newProject.name] ∧
    (enhanceWithCurrentProject resume u so username).changes.updatedWork = [] ∧
    (enhanceWithCurrentProject resume u so username).changes.otherChanges = u.changes :=
  ⟨rfl, rfl, rfl, rfl⟩

/-- C2: merging a second time with the same proposed update is the
identity on the already-merged resume, so the second application adds
zero new skills and zero new projects. -/
theorem c2_merge_idempotent (r : Resume) (u : ResumeUpdate) :
    enhanceResume (enhanceResume r u) u = enhanceResume r u := by
  have hkeys : existingProjectKeys (enhanceResume r u)
      = existingProjectKeys (addProject r u.newProject) := by
    unfold enhanceResume existingProjectKeys
    rw [addSkills_projects]
  have hp : addProject (enhanceResume r u) u.newProject = enhanceResume r u := by
    cases hnp : u.newProject with
    | none => rfl
    | some p =>
      have hmem : jsToLower p.name ∈ existingProjectKeys (enhanceResume r u) := by
        rw [hkeys, hnp]
        exact mem_projectKeys_addProject r p
      simp only [addProject, if_pos ((contains_iff_mem _ _).mpr hmem)]
  have hempty : (freshSkills (enhanceResume r u) u.newSkills).isEmpty = true := by
    have hnil : freshSkills (enhanceResume r u) u.newSkills = [] := by
      unfold freshSkills
      apply List.filter_eq_nil_iff.mpr
      intro s hsmem
      have hmem : jsToLower s.name ∈ existingSkillKeys (enhanceResume r u) :=
        mem_skillKeys_addSkills (addProject r u.newProject) u.newSkills s hsmem
      have hcont := (contains_iff_mem _ _).mpr hmem
      rw [hcont]
      decide
    rw [hnil]
    rfl
  have hs : addSkills (enhanceResume r u) u.newSkills = enhanceResume r u := by
    simp only [addSkills, if_pos hempty]
  calc enhanceResume (enhanceResume r u) u
      = addSkills (addProject (enhanceResume r u) u.newProject) u.newSkills := rfl
    _ = addSkills (enhanceResume r u) u.newSkills := by rw [hp]
    _ = enhanceResume r u := hs

/-- C3: the merge is non-destructive: every field other than skills and
projects (the metadata block included) is carried over unchanged, and
the skills and projects lists are only ever extended by appending at
the end; the merge is a pure function, so the caller's resume value is
untouched by construction. -/
theorem c3_merge_nondestructive (r : Resume) (u : ResumeUpdate) :
    ∃ (addedS : List ResumeSkillEntry) (addedP : List Project),
      (enhanceResume r u).basics = r.basics ∧
      (enhanceResume r u).work = r.work ∧
      (enhanceResume r u).volunteer = r.volunteer ∧
      (enhanceResume r u).education = r.education ∧
      (enhanceResume r u).awards = r.awards ∧
      (enhanceResume r u).certificates = r.certificates ∧
      (enhanceResume r u).publications = r.publications ∧
      (enhanceResume r u).languages = r.languages ∧
      (enhanceResume r u).interests = r.interests ∧
      (enhanceResume r u).references = r.references ∧
      (enhanceResume r u).meta = r.meta ∧
      (enhanceResume r u).gistId = r.gistId ∧
      (enhanceResume r u).skills
        = (if addedS.isEmpty then r.skills else some (r.skills.getD [] ++ addedS)) ∧
      (enhanceResume r u).projects
        = (if addedP.isEmpty then r.projects else some (r.projects.getD [] ++ addedP)) := by
  obtain ⟨h1, h2, h3, h4, h5, h6, h7, h8, h9, h10, h11, h12⟩ := enhanceResume_frame r u
  refine ⟨(freshSkills r u.newSkills).map ResumeSkillEntry.obj,
          appendedProjects r u.newProject,
          h1, h2, h3, h4, h5, h6, h7, h8, h9, h10, h11, h12, ?_, ?_⟩
  · rw [enhanceResume_skills, isEmpty_map]
  · rw [enhanceResume_projects]

/-- C4 (counterexample): the merge does not update the metadata
timestamp, and does not create a metadata block when it is absent: on a
resume without meta the merge result still has no meta, and on a resume
with an old lastModified value the merge leaves it verbatim. -/
theorem c4_timestamp_counterexample :
    (enhanceResume ({} : Resume) scenarioUpdate.toResumeUpdate).meta = none ∧
    (enhanceResume { meta := some { version := some "v1.0.0"
                                  , lastModified := some "2020-01-01T00:00:00Z" } }
        scenarioUpdate.toResumeUpdate).meta
      = some { canonical := none, version := some "v1.0.0"
             , lastModified := some "2020-01-01T00:00:00Z" } := by
  decide

/-- C4 (amended): the merge carries the metadata block over verbatim:
it neither updates nor creates the last-modified timestamp (the
write-back layer, not the merge, would be responsible for that). -/
theorem c4_meta_unchanged (r : Resume) (u : ResumeUpdate) :
    (enhanceResume r u).meta = r.meta :=
  (enhanceResume_frame r u).2.2.2.2.2.2.2.2.2.2.1

/-- C5 (counterexample): the spec claims the dedup key is the
lower-cased TRIMMED name; the code never trims, so a proposed skill
named with padding whitespace around python is appended even though its
lower-cased trimmed name equals the key of the existing Python skill. -/
theorem c5_trim_counterexample :
    specDedupKey paddedPythonSkill.name = specDedupKey "Python" ∧
    (enhanceResume pythonResume paddedUpdate).skills
      = some [ResumeSkillEntry.obj { name := "Python" }, ResumeSkillEntry.obj paddedPythonSkill] := by
  constructor
  · decide
  · decide

/-- C5 (amended): with the dedup key of the code (lower-cased name,
WITHOUT trimming), a proposed skill whose key collides with any existing
skill key is silently not appended — the merge never errors since it is
a total function. -/
theorem c5_dedup_case_insensitive (r : Resume) (u : ResumeUpdate) (s : Skill)
    (h1 : s ∈ u.newSkills)
    (h2 : (existingSkillKeys r).contains (jsToLower s.name) = true) :
    ResumeSkillEntry.obj s ∉
      ((enhanceResume r u).skills.getD []).drop ((r.skills.getD []).length) := by
  rw [enhanceResume_skills_getD, List.drop_left]
  intro hmem
  obtain ⟨t, ht, hts⟩ := List.mem_map.mp hmem
  have hts2 : t = s := by injection hts
  subst hts2
  unfold freshSkills at ht
  have hpred := (List.mem_filter.mp ht).2
  rw [h2] at hpred
  cases hpred

/-- C5 witness: proposed python against existing Python is not appended. -/
theorem c5_dedup_case_insensitive_witness :
    ({ name := "python" } : Skill) ∈ lowerPythonUpdate.newSkills ∧
    (existingSkillKeys pythonResume).contains (jsToLower ({ name := "python" } : Skill).name) = true ∧
    ResumeSkillEntry.obj { name := "python" } ∉
      List.drop ((pythonResume.skills.getD []).length)
        ((enhanceResume pythonResume lowerPythonUpdate).skills.getD []) :=
  ⟨by decide, by decide,
   c5_dedup_case_insensitive pythonResume lowerPythonUpdate { name := "python" }
     (by decide) (by decide)⟩

/-- C6: the storage identifier round-trips through the merge unchanged,
and the check-resume handler strips it from the document it returns. -/
theorem c6_identifier_roundtrip (r : Resume) (u : ResumeUpdate) (g : String)
    (username : String) (h : r.gistId = some g) :
    (enhanceResume r u).gistId = some g ∧
    (checkResume (some r) username).resume = some { r with gistId := none } := by
  constructor
  · rw [(enhanceResume_frame r u).2.2.2.2.2.2.2.2.2.2.2, h]
  · rfl

/-- C6 witness: a concrete resume carrying identifier abc123. -/
theorem c6_identifier_roundtrip_witness :
    gistResume.gistId = some "abc123" ∧
    ((enhanceResume gistResume paddedUpdate).gistId = some "abc123" ∧
     (checkResume (some gistResume) "user").resume = some { gistResume with gistId := none }) :=
  ⟨rfl, c6_identifier_roundtrip gistResume paddedUpdate "abc123" "user" rfl⟩

/-- C7 (counterexample): when the cached identifier is stale (its fetch
fails), the resolution clears the cache and returns nothing — the
listing-and-filtering path is NOT retried within that resolution, even
though it would succeed: the very same listing and fetch oracle produce
the resume content on the next (cache-less) call. -/
theorem c7_retry_counterexample :
    getResumeGist (some "stale") [freshGist] staleFetch = (none, none) ∧
    getResumeGist none [freshGist] staleFetch = (some "fresh", some "RESUME") := by
  constructor
  · rfl
  · rfl

/-- C7 (amended): a resolution that starts with a cached identifier
never consults the listing (its result is independent of the gists
argument), and if the cached fetch fails the cache is cleared and the
resolution returns nothing; the listing path runs again only on the
next resolution call. -/
theorem c7_cache_failure (gid : String) (gists gists2 : List Gist)
    (fetch : String → FetchOutcome) (h : fetch gid = FetchOutcome.err) :
    getResumeGist (some gid) gists fetch = (none, none) ∧
    getResumeGist (some gid) gists fetch = getResumeGist (some gid) gists2 fetch := by
  constructor
  · show getResumeGistFetch gid fetch = (none, none)
    unfold getResumeGistFetch
    rw [h]
  · rfl

/-- C7 witness: a concrete always-failing fetch. -/
theorem c7_cache_failure_witness :
    failFetch "stale" = FetchOutcome.err ∧
    (getResumeGist (some "stale") [] failFetch = (none, none) ∧
     getResumeGist (some "stale") [] failFetch = getResumeGist (some "stale") [freshGist] failFetch) :=
  ⟨rfl, c7_cache_failure "stale" [] [freshGist] failFetch rfl⟩

/-- C8: an oracle payload whose project description is missing or
shorter than 10 characters is rejected by schema validation; the
enhancement attempt aborts with a schema error, which is a different
constructor from the parse error, and no merged result is ever
produced (so the resume is untouched). -/
theorem c8_validation_rejects (resume : Resume) (raw : RawUpdate) (rp : RawProject)
    (so : SummaryOutcome) (username : String)
    (hp : raw.newProject = some rp)
    (hd : rp.description = none ∨ ∃ d, rp.description = some d ∧ d.length < 10) :
    (∃ m, enhanceWithCurrentProjectRun resume (OracleOutput.parsed raw) so username
        = Except.error (EnhanceError.schemaError m)) ∧
    (∀ m, EnhanceError.schemaError m ≠ EnhanceError.parseError) ∧
    (∀ res, enhanceWithCurrentProjectRun resume (OracleOutput.parsed raw) so username
        ≠ Except.ok res) := by
  obtain ⟨m, hm⟩ := validateProject_description_error rp hd
  have hv : validateResumeUpdate raw = Except.error m := by
    unfold validateResumeUpdate
    rw [hp]
    dsimp only
    rw [hm]
  have hrun : enhanceWithCurrentProjectRun resume (OracleOutput.parsed raw) so username
      = Except.error (EnhanceError.schemaError m) := by
    unfold enhanceWithCurrentProjectRun generateResumeEnhancement
    dsimp only
    rw [hv]
  refine ⟨⟨m, hrun⟩, ?_, ?_⟩
  · intro m2 hcon
    cases hcon
  · intro res hcon
    rw [hrun] at hcon
    cases hcon

/-- C8 witness: the concrete payload with the description missing. -/
theorem c8_validation_rejects_witness :
    rawMissingDescription.newProject
        = some { name := some "Service X", startDate := some "2024-01-01" } ∧
    (({ name := some "Service X", startDate := some "2024-01-01" } : RawProject).description = none ∨
      ∃ d, ({ name := some "Service X", startDate := some "2024-01-01" } : RawProject).description
          = some d ∧ d.length < 10) ∧
    ((∃ m, enhanceWithCurrentProjectRun {} (OracleOutput.parsed rawMissingDescription)
          SummaryOutcome.err "user" = Except.error (EnhanceError.schemaError m)) ∧
     (∀ m, EnhanceError.schemaError m ≠ EnhanceError.parseError) ∧
     (∀ res, enhanceWithCurrentProjectRun {} (OracleOutput.parsed rawMissingDescription)
          SummaryOutcome.err "user" ≠ Except.ok res)) :=
  ⟨rfl, Or.inl rfl,
   c8_validation_rejects {} rawMissingDescription
     { name := some "Service X", startDate := some "2024-01-01" }
     SummaryOutcome.err "user" rfl (Or.inl rfl)⟩

/-- C9: when the primary oracle result is valid, a failure of the
secondary summary call never fails the run: the error is swallowed, the
summary is the fixed fallback string, and the merged resume and the
change record are still returned. -/
theorem c9_summary_fallback (resume : Resume) (out : OracleOutput) (u : CodebaseUpdate)
    (username : String) (h : generateResumeEnhancement out = Except.ok u) :
    enhanceWithCurrentProjectRun resume out SummaryOutcome.err username
      = Except.ok (enhanceWithCurrentProject resume u SummaryOutcome.err username) ∧
    (enhanceWithCurrentProject resume u SummaryOutcome.err username).summary = fallbackSummary ∧
    fallbackSummary = "Resume updated with new project details and skills." ∧
    (enhanceWithCurrentProject resume u SummaryOutcome.err username).updatedResume
      = enhanceResume resume u.toResumeUpdate ∧
    (enhanceWithCurrentProject resume u SummaryOutcome.err username).changes.otherChanges
      = u.changes := by
  refine ⟨?_, rfl, rfl, rfl, rfl⟩
  unfold enhanceWithCurrentProjectRun
  rw [h]

/-- C9 witness: a concrete valid oracle payload with the summary call
failing. -/
theorem c9_summary_fallback_witness :
    generateResumeEnhancement (OracleOutput.parsed rawValid) = Except.ok validUpdate ∧
    (enhanceWithCurrentProjectRun scenarioResume (OracleOutput.parsed rawValid)
        SummaryOutcome.err "user"
      = Except.ok (enhanceWithCurrentProject scenarioResume validUpdate SummaryOutcome.err "user") ∧
     (enhanceWithCurrentProject scenarioResume validUpdate SummaryOutcome.err "user").summary
        = fallbackSummary ∧
     fallbackSummary = "Resume updated with new project details and skills." ∧
     (enhanceWithCurrentProject scenarioResume validUpdate SummaryOutcome.err "user").updatedResume
        = enhanceResume scenarioResume validUpdate.toResumeUpdate ∧
     (enhanceWithCurrentProject scenarioResume validUpdate SummaryOutcome.err "user").changes.otherChanges
        = validUpdate.changes) :=
  ⟨rfl, c9_summary_fallback scenarioResume (OracleOutput.parsed rawValid) validUpdate "user" rfl⟩

/-- C10: the skill dedup filter checks each proposed skill only against
the resume's pre-existing keys, never against the other proposed
skills: two proposed skills with equal lower-cased names absent from
the resume are BOTH appended, so the merged list holds two entries with
the same dedup key. -/
theorem c10_dedup_ignores_proposed (r : Resume) (np : Option Project) (cs : List String)
    (s1 s2 : Skill)
    (h1 : jsToLower s1.name = jsToLower s2.name)
    (h2 : (existingSkillKeys r).contains (jsToLower s1.name) = false) :
    (enhanceResume r { newProject := np, newSkills := [s1, s2], changes := cs }).skills.getD []
      = r.skills.getD [] ++ [ResumeSkillEntry.obj s1, ResumeSkillEntry.obj s2] ∧
    skillKey (ResumeSkillEntry.obj s1) = skillKey (ResumeSkillEntry.obj s2) := by
  constructor
  · rw [enhanceResume_skills_getD]
    have hf : freshSkills r [s1, s2] = [s1, s2] := by
      have h2b : (existingSkillKeys r).contains (jsToLower s2.name) = false := by
        rw [← h1]
        exact h2
      have p1 : (!(existingSkillKeys r).contains (jsToLower s1.name)) = true := by
        rw [h2]
        rfl
      have p2 : (!(existingSkillKeys r).contains (jsToLower s2.name)) = true := by
        rw [h2b]
        rfl
      unfold freshSkills
      simp only [List.filter, p1, p2]
    rw [hf]
    rfl
  · show jsToLower s1.name = jsToLower s2.name
    exact h1

/-- C10 witness: Go and gO against an empty resume. -/
theorem c10_dedup_ignores_proposed_witness :
    jsToLower goSkill.name = jsToLower goSkillVariant.name ∧
    (existingSkillKeys ({} : Resume)).contains (jsToLower goSkill.name) = false ∧
    ((enhanceResume {} { newProject := none, newSkills := [goSkill, goSkillVariant]
                       , changes := [] }).skills.getD []
        = ({} : Resume).skills.getD []
            ++ [ResumeSkillEntry.obj goSkill, ResumeSkillEntry.obj goSkillVariant] ∧
     skillKey (ResumeSkillEntry.obj goSkill) = skillKey (ResumeSkillEntry.obj goSkillVariant)) :=
  ⟨by decide, by decide,
   c10_dedup_ignores_proposed {} none [] goSkill goSkillVariant (by decide) (by decide)⟩

end ResumeMcp
